import Mathlib

/-!
Verification of the `umarell` repository's core logic: the IFC-room import
matching (`src/ifc_to_graph.py`), the LLM query router's intent
classification (`src/llm_router_tool.py`), and the inspector toolkit
(`src/umarell_tool.py`).  Python strings are modelled as lists of
characters, dictionaries as association lists, and `None`-able values as
`Option`.
-/

namespace Umarell

/-- Python strings, modelled as lists of characters. -/
abbrev Str := List Char

/-- The character class `[a-z0-9]` used by the regex in `normalize`
(src/ifc_to_graph.py:31), by code point: `a`-`z` is 97-122, `0`-`9` is 48-57. -/
def isAlnum (c : Char) : Bool :=
  (97 ≤ c.toNat && c.toNat ≤ 122) || (48 ≤ c.toNat && c.toNat ≤ 57)

/-- Worker for `re.sub(r"[^a-z0-9]+", " ", text)`: each maximal run of
non-`[a-z0-9]` characters is replaced by a single space.  The flag records
whether the previous character was part of such a run (in which case the
run's single space has already been emitted). -/
def collapseAux : Bool → Str → Str
  | _, [] => []
  | inRun, c :: cs =>
    if isAlnum c then c :: collapseAux false cs
    else if inRun then collapseAux true cs
    else ' ' :: collapseAux true cs

/-- `re.sub(r"[^a-z0-9]+", " ", text)` from src/ifc_to_graph.py:31. -/
def collapseRuns (l : Str) : Str := collapseAux false l

/-- Python `str.strip()`: drop whitespace from both ends. -/
def pyStrip (l : Str) : Str :=
  ((l.dropWhile Char.isWhitespace).reverse.dropWhile Char.isWhitespace).reverse

/-- Python `str.lower()` (restricted to the ASCII range, which is all the
downstream comparisons inspect). -/
def pyLower (l : Str) : Str := l.map Char.toLower

/-- Embeds `normalize` from src/ifc_to_graph.py:26-32: lowercase, collapse
runs of non-alphanumeric characters to single spaces, strip the ends.
(The `if not text: return ''` guard agrees with this pipeline on the empty
string, and `None` inputs are handled at the call sites via `normalizeOpt`.) -/
def normalize (l : Str) : Str := pyStrip (collapseRuns (pyLower l))

/-- Python truthiness of an optional string: `None` and `""` are falsy. -/
def truthy : Option Str → Bool
  | none => false
  | some s => !s.isEmpty

/-- Python f-string rendering of a possibly-`None` string (`str(None)` is the
text `"None"`), as used in `f"{longname} {name}"` (src/ifc_to_graph.py:125). -/
def pyFStr : Option Str → Str
  | none => "None".toList
  | some s => s

/-- `normalize` applied to a possibly-`None` value: the `if not text` guard
of src/ifc_to_graph.py:27 maps `None` to the empty string. -/
def normalizeOpt : Option Str → Str
  | none => []
  | some s => normalize s

/-- The attributes of one `IfcSpace` entity read by the matching logic
(src/ifc_to_graph.py:59-64). -/
structure IfcSpace where
  name : Option Str
  longname : Option Str
  obj_type : Option Str
  globalid : Option Str
deriving DecidableEq

/-- `p_name = normalize(name)` (src/ifc_to_graph.py:122). -/
def p_name (sp : IfcSpace) : Str := normalizeOpt sp.name

/-- `p_long = normalize(longname)` (src/ifc_to_graph.py:123). -/
def p_long (sp : IfcSpace) : Str := normalizeOpt sp.longname

/-- `p_global = normalize(globalid)` (src/ifc_to_graph.py:124). -/
def p_global (sp : IfcSpace) : Str := normalizeOpt sp.globalid

/-- `p_combined_1 = normalize(f"{longname} {name}")` (src/ifc_to_graph.py:125). -/
def p_combined_1 (sp : IfcSpace) : Str :=
  normalize (pyFStr sp.longname ++ ' ' :: pyFStr sp.name)

/-- `p_combined_2 = normalize(f"{name} {longname}")` (src/ifc_to_graph.py:126). -/
def p_combined_2 (sp : IfcSpace) : Str :=
  normalize (pyFStr sp.name ++ ' ' :: pyFStr sp.longname)

/-- The key-matching loop of src/ifc_to_graph.py:128-141: for each config key
in order, normalize it and test exact equality against the five candidates,
then substring containment in either concatenation, then containment of
either concatenation in the key; the first key passing any test is returned. -/
def found_key (sp : IfcSpace) : List Str → Option Str
  | [] => none
  | key :: rest =>
    let k := normalize key
    if k = p_global sp ∨ k = p_name sp ∨ k = p_long sp ∨
        k = p_combined_1 sp ∨ k = p_combined_2 sp then some key
    else if k <:+: p_combined_1 sp ∨ k <:+: p_combined_2 sp then some key
    else if p_combined_1 sp <:+: k ∨ p_combined_2 sp <:+: k then some key
    else found_key sp rest

/-- One key's combined match test, as the claim phrases it: exact equality
with any of the five candidates, or the normalized key a substring of either
concatenation, or either concatenation a substring of the normalized key. -/
def keyMatches (sp : IfcSpace) (key : Str) : Bool :=
  let k := normalize key
  decide (k = p_global sp ∨ k = p_name sp ∨ k = p_long sp ∨
      k = p_combined_1 sp ∨ k = p_combined_2 sp) ||
    decide (k <:+: p_combined_1 sp ∨ k <:+: p_combined_2 sp) ||
    decide (p_combined_1 sp <:+: k ∨ p_combined_2 sp <:+: k)

/-- The fallback prefix of src/ifc_to_graph.py:147. -/
def ifc_auto_text : Str := "ifc_auto_".toList

/-- `final_key` after the fallback branch (src/ifc_to_graph.py:143-147)
combined with the `if final_key:` guard (src/ifc_to_graph.py:149): the
room_key of the record this space upserts, or `none` when the space produces
no record.  Python truthiness makes both branches treat the empty string
like `None`. -/
def upsert_key (room_keys : List Str) (sp : IfcSpace) : Option Str :=
  let found := found_key sp room_keys
  let fin := if !truthy found && truthy sp.globalid
             then some (ifc_auto_text ++ sp.globalid.getD [])
             else found
  if truthy fin then fin else none

/-- The fields of an upserted `Room` node that the claims mention
(src/ifc_to_graph.py:154-166 and the placeholder MERGE at line 186). -/
structure RoomRecord where
  room_key : Option Str
  name : Option Str
  long_name : Option Str
  globalid : Option Str
  type : Option Str
deriving DecidableEq

/-- The record upserted for a space, when the space produces one
(src/ifc_to_graph.py:149-181). -/
def spaceRecord (room_keys : List Str) (sp : IfcSpace) : Option RoomRecord :=
  (upsert_key room_keys sp).map fun k =>
    { room_key := some k, name := sp.name, long_name := sp.longname,
      globalid := sp.globalid, type := sp.obj_type }

/-- The key a space adds to `matched_keys` (src/ifc_to_graph.py:150-151):
only when a record is upserted and `found_key` is truthy. -/
def matched_key (room_keys : List Str) (sp : IfcSpace) : Option Str :=
  if (upsert_key room_keys sp).isSome && truthy (found_key sp room_keys)
  then found_key sp room_keys else none

/-- The set `matched_keys` accumulated over all spaces (src/ifc_to_graph.py:54,151). -/
def matched_keys (room_keys : List Str) (spaces : List IfcSpace) : List Str :=
  spaces.filterMap (matched_key room_keys)

/-- Placeholder records for configured keys that matched no space
(src/ifc_to_graph.py:184-186). -/
def placeholder_records (room_keys : List Str) (spaces : List IfcSpace) :
    List RoomRecord :=
  (room_keys.filter fun k => !(matched_keys room_keys spaces).contains k).map
    fun k => { room_key := some k, name := none, long_name := none,
               globalid := none, type := some ("Placeholder".toList) }

/-- Every record upserted during one import run: one per space that produces
a record, plus the placeholders for unmatched configured keys. -/
def upserted_records (room_keys : List Str) (spaces : List IfcSpace) :
    List RoomRecord :=
  spaces.filterMap (spaceRecord room_keys) ++ placeholder_records room_keys spaces

/-- Python `str.upper()` (restricted to the ASCII range, which is all the
category keys use). -/
def pyUpper (l : Str) : Str := l.map Char.toUpper

/-- The Italian-to-English category table of src/ifc_to_graph.py:89-108, in
declaration order. -/
def category_map : List (Str × Str) :=
  [("UFFICI".toList, "Office".toList),
   ("AULE".toList, "Classroom".toList),
   ("AULA".toList, "Classroom".toList),
   ("SERVIZI".toList, "Restroom".toList),
   ("WC".toList, "Restroom".toList),
   ("CIRC.ORIZ".toList, "Corridor".toList),
   ("CONNETTIVO".toList, "Corridor".toList),
   ("SCALE".toList, "Stairs".toList),
   ("DEPOSITI".toList, "Storage".toList),
   ("DEPOSITO".toList, "Storage".toList),
   ("TECNICI".toList, "Technical Room".toList),
   ("LOCALE TECNICO".toList, "Technical Room".toList),
   ("LABORATORI".toList, "Laboratory".toList),
   ("LABORATORIO".toList, "Laboratory".toList),
   ("RISTORO".toList, "Break Room".toList),
   ("SPAZI COMPLEMENTARI".toList, "Support Space".toList),
   ("SALA RIUNIONI".toList, "Meeting Room".toList),
   ("SALA STUDIO".toList, "Study Room".toList)]

/-- The category translation loop of src/ifc_to_graph.py:110-116: the first
table entry (in declaration order) whose key is contained in the upper-cased
description wins; a falsy (`None` or empty) description yields no category. -/
def category_en (category_it : Option Str) : Option Str :=
  match category_it with
  | none => none
  | some s =>
    if s.isEmpty then none
    else (category_map.find? fun kv => decide (kv.1 <:+: pyUpper s)).map Prod.snd

/-- Longest-match-first lookup, following the spec's words for the category
translation: among the table entries whose key is contained in the
upper-cased description, the one with the longest key wins, earlier
declaration breaking ties.  Used only to compare the spec's description
against the code's `category_en`. -/
def category_en_longest (s : Str) : Option Str :=
  ((category_map.filter fun kv => decide (kv.1 <:+: pyUpper s)).foldl
    (fun acc kv =>
      match acc with
      | none => some kv
      | some best => if best.1.length < kv.1.length then some kv else acc)
    none).map Prod.snd

/-- The three routing outcomes of `ask_building_data`
(src/llm_router_tool.py:124-200). -/
inductive Intent where
  | structural
  | timeseries
  | ambiguous
  deriving DecidableEq

/-- `structural_kw` (src/llm_router_tool.py:132). -/
def structural_kw : List Str :=
  ["connected to", "on the same floor", "next to", "adjacent",
   "connected"].map String.toList

/-- `timeseries_kw` (src/llm_router_tool.py:133). -/
def timeseries_kw : List Str :=
  ["temperature", "history", "value", "avg", "average", "min", "max",
   "reading"].map String.toList

/-- The intent detection of `ask_building_data`
(src/llm_router_tool.py:131-147 and the default branch at 194-200):
lowercase the query; any structural keyword routes to the structural branch,
else any time-series keyword routes to the time-series branch, else the
ambiguous default branch runs. -/
def classify_intent (q : Str) : Intent :=
  if structural_kw.any fun kw => decide (kw <:+: pyLower q) then .structural
  else if timeseries_kw.any fun kw => decide (kw <:+: pyLower q) then .timeseries
  else .ambiguous

/-- Python `datetime.timedelta.seconds` for a non-negative delta of `elapsed`
whole seconds: the seconds component left after removing whole days — not
the total elapsed seconds. -/
def timedelta_seconds (elapsed : Nat) : Nat := elapsed % 86400

/-- The cache test of `_load_sensor_config` (src/umarell_tool.py:110-115):
the cached config is returned exactly when a cached value and a load time
exist and `(now - load_time).seconds < 300`. -/
def sensor_config_cache_hit (hasCache hasLoadTime : Bool) (elapsed : Nat) : Bool :=
  hasCache && hasLoadTime && decide (timedelta_seconds elapsed < 300)

/-- The character class removed by `_sanitize_string`
(src/umarell_tool.py:146), by code point: single quote 39, double quote 34,
backslash 92, semicolon 59, backtick 96. -/
def isDangerous (c : Char) : Bool :=
  c.toNat = 39 || c.toNat = 34 || c.toNat = 92 || c.toNat = 59 || c.toNat = 96

/-- Embeds `_sanitize_string` (src/umarell_tool.py:138-148): `None` becomes
the empty string; otherwise the dangerous characters are removed and the
result is truncated to 100 characters. -/
def _sanitize_string (v : Option Str) : Str :=
  match v with
  | none => []
  | some s => (s.filter fun c => !isDangerous c).take 100

/-- A `Room`/`Element`/`Space` node as `query_topology` reads it
(src/umarell_tool.py:232-247); all properties are nullable. -/
structure RoomNode where
  room_key : Option Str
  name : Option Str
  longname : Option Str
  category_en : Option Str
  category_it : Option Str
  storey : Option Str
  floor : Option Str
  type : Option Str
  deriving DecidableEq

/-- Cypher `toLower(f) CONTAINS needle` on a nullable property: a null
property never satisfies the WHERE clause. -/
def containsLower (f : Option Str) (needle : Str) : Bool :=
  match f with
  | none => false
  | some s => decide (needle <:+: pyLower s)

/-- Cypher `f ENDS WITH s` on a nullable property. -/
def endsWithOpt (f : Option Str) (s : Str) : Bool :=
  match f with
  | none => false
  | some t => decide (s <:+ t)

/-- The category filter of `query_topology` (src/umarell_tool.py:203-210):
substring match on the lowered `category_en`, `category_it` or `type`. -/
def category_clause (safeCat : Str) (n : RoomNode) : Bool :=
  containsLower n.category_en safeCat || containsLower n.category_it safeCat ||
    containsLower n.type safeCat

/-- The floor filter of `query_topology` (src/umarell_tool.py:212-219):
exact equality on `storey`, suffix match on `storey`, or exact equality on
`floor` — not a general substring match. -/
def floor_clause (safeFloor : Str) (n : RoomNode) : Bool :=
  decide (n.storey = some safeFloor) || endsWithOpt n.storey safeFloor ||
    decide (n.floor = some safeFloor)

/-- The name filter of `query_topology` (src/umarell_tool.py:221-226):
substring match on the lowered `name` or `longname`. -/
def name_clause (safeName : Str) (n : RoomNode) : Bool :=
  containsLower n.name safeName || containsLower n.longname safeName

/-- The assembled WHERE predicate of `query_topology`: the conjunction of
the clauses for the provided (truthy) filters, each filter value passed
through `_sanitize_string` (and lowered for category and name). -/
def topology_pred (category floor name_contains : Option Str) (n : RoomNode) :
    Bool :=
  (if truthy category then category_clause (pyLower (_sanitize_string category)) n
   else true) &&
  (if truthy floor then floor_clause (_sanitize_string floor) n else true) &&
  (if truthy name_contains then
    name_clause (pyLower (_sanitize_string name_contains)) n
   else true)

/-- Lexicographic string comparison by character code (the order Cypher
sorts strings in). -/
def strLe : Str → Str → Bool
  | [], _ => true
  | _ :: _, [] => false
  | a :: as, b :: bs => if a < b then true else if b < a then false else strLe as bs

/-- Ascending Cypher ORDER BY places null values last. -/
def optStrLe : Option Str → Option Str → Bool
  | none, none => true
  | none, some _ => false
  | some _, none => true
  | some a, some b => strLe a b

/-- `ORDER BY n.storey, n.name` (src/umarell_tool.py:245). -/
def node_le (x y : RoomNode) : Bool :=
  if x.storey = y.storey then optStrLe x.name y.name
  else optStrLe x.storey y.storey

/-- `query_topology` (src/umarell_tool.py:164-254) over the room table: the
requirement that at least one filter is truthy (else the error reply carries
no items), the WHERE predicate, `ORDER BY n.storey, n.name`, `LIMIT 100`. -/
def query_topology (db : List RoomNode)
    (category floor name_contains : Option Str) : List RoomNode :=
  if !(truthy category || truthy floor || truthy name_contains) then []
  else ((db.filter (topology_pred category floor name_contains)).insertionSort
         fun x y => node_le x y = true).take 100

/-- The three accepted shapes of a `room_to_sensor_map` entry
(src/umarell_tool.py:582-609): a sensor-type-to-id dictionary, a single id
string, or a list of ids. -/
inductive SensorEntry where
  | dict (m : List (Str × Str))
  | str (s : Str)
  | list (ids : List Str)
  deriving DecidableEq

/-- The measurement-name alias table of `inspect_zone_metrics`
(src/umarell_tool.py:466-475). -/
def measurement_aliases : List (Str × Str) :=
  [("temp".toList, "temperature".toList),
   ("temperatura".toList, "temperature".toList),
   ("air".toList, "co2".toList),
   ("air_quality".toList, "co2".toList),
   ("air quality".toList, "co2".toList),
   ("carbon dioxide".toList, "co2".toList),
   ("umidità".toList, "humidity".toList),
   ("humid".toList, "humidity".toList)]

/-- `measurement_type.lower().strip()` followed by the alias lookup with the
input itself as default (src/umarell_tool.py:462-476). -/
def normalize_measurement (m : Str) : Str :=
  let ml := pyStrip (pyLower m)
  (((measurement_aliases.find? fun kv => decide (kv.1 = ml))).map Prod.snd).getD ml

/-- One room's sensor match (src/umarell_tool.py:582-609): the first
configured sensor whose type name (dict shape) or id (str and list shapes)
contains the normalized measurement name, with the matched sensor type and
id as recorded in `rooms_with_sensors`. -/
def sensor_match (mNorm : Str) : SensorEntry → Option (Str × Str)
  | .dict m =>
    (m.find? fun kv => decide (mNorm <:+: pyLower kv.1)).map fun kv => (kv.1, kv.2)
  | .str s => if mNorm <:+: pyLower s then some (mNorm, s) else none
  | .list ids =>
    (ids.find? fun sid => decide (mNorm <:+: pyLower sid)).map fun sid => (mNorm, sid)

/-- The dictionary lookup `room_to_sensor_map.get(room_id, {})`
(src/umarell_tool.py:579). -/
def lookup_entry (cfg : List (Str × SensorEntry)) (rid : Str) : SensorEntry :=
  ((cfg.find? fun kv => decide (kv.1 = rid)).map Prod.snd).getD (.dict [])

/-- `rooms_with_sensors` (src/umarell_tool.py:576-609): the rooms of the
zone that have a sensor matching the measurement type, with the matched
sensor type and id. -/
def rooms_with_sensors (roomIds : List Str) (cfg : List (Str × SensorEntry))
    (mNorm : Str) : List (Str × Str × Str) :=
  roomIds.filterMap fun rid =>
    (sensor_match mNorm (lookup_entry cfg rid)).map fun ts => (rid, ts)

/-- The descriptive no-data message of src/umarell_tool.py:611-616. -/
def no_sensors_message (nRooms : Nat) (zone mtype : Str) : Str :=
  "Found ".toList ++ (Nat.repr nRooms).toList ++ " rooms in '".toList ++
    zone ++ "', but none have '".toList ++ mtype ++
    "' sensors configured. Va che l\'è brutta! How can I analyze what isn\'t measured?".toList

/-- Step 2 of `inspect_zone_metrics` (src/umarell_tool.py:566-616): once the
zone has resolved to a set of rooms, either the early return with the
descriptive no-data message (when no room of the zone has a sensor matching
the measurement type) or the room/sensor list handed to the data query. -/
def inspect_zone_sensor_step (zone mtype : Str) (roomIds : List Str)
    (cfg : List (Str × SensorEntry)) : Except Str (List (Str × Str × Str)) :=
  let rws := rooms_with_sensors roomIds cfg (normalize_measurement mtype)
  if rws.isEmpty then .error (no_sensors_message roomIds.length zone mtype)
  else .ok rws

/-- Modelled from the spec: the ResultFormatter's qualitative
temperature-comfort label (§4.6) — the formatter itself is not among the
repository's source files.  Thresholds: a value greater than 21 is labelled
"high", a value less than 19 "low", anything else "acceptable". -/
def comfort_label (v : ℚ) : Str :=
  if 21 < v then "high".toList
  else if v < 19 then "low".toList
  else "acceptable".toList

/-- Modelled from the spec: result formatting is presentation-only (§4.6) —
it pairs each given row with a contextual annotation and must not alter the
underlying values. -/
def format_rows (rows : List (Str × ℚ)) : List (Str × ℚ × Str) :=
  rows.map fun p => (p.1, p.2, comfort_label p.2)

-- == Theorems ==

theorem isAlnum_ne_space {c : Char} (h : isAlnum c = true) : c ≠ ' ' := by
  intro he
  subst he
  simp [isAlnum] at h

theorem toLower_fixed {c : Char} (h : isAlnum c = true ∨ c = ' ') :
    c.toLower = c := by
  rcases h with h | h
  · simp only [isAlnum, Bool.or_eq_true, Bool.and_eq_true, decide_eq_true_eq] at h
    simp only [Char.toLower]
    split
    · omega
    · rfl
  · subst h; decide

theorem mem_collapseAux {c : Char} :
    ∀ (b : Bool) (l : Str), c ∈ collapseAux b l → isAlnum c = true ∨ c = ' ' := by
  intro b l
  induction l generalizing b with
  | nil => intro h; simp [collapseAux] at h
  | cons d ds ih =>
    intro h
    by_cases hd : isAlnum d
    · simp only [collapseAux, hd, if_pos] at h
      rcases List.mem_cons.1 h with h | h
      · exact Or.inl (h ▸ hd)
      · exact ih false h
    · simp only [collapseAux, hd, if_neg, Bool.false_eq_true] at h
      cases b with
      | true => exact ih true (by simpa using h)
      | false =>
        rcases List.mem_cons.1 (by simpa using h) with h | h
        · exact Or.inr h
        · exact ih true h

theorem head_collapseAux_true (l : Str) :
    ∀ e ∈ (collapseAux true l).head?, isAlnum e = true := by
  induction l with
  | nil => intro e he; simp [collapseAux] at he
  | cons d ds ih =>
    intro e he
    by_cases hd : isAlnum d
    · simp only [collapseAux, hd, if_pos, List.head?_cons, Option.mem_def,
        Option.some.injEq] at he
      exact he ▸ hd
    · simp only [collapseAux, hd, Bool.false_eq_true, if_neg, if_true] at he
      exact ih e he

theorem chain'_collapseAux (b : Bool) (l : Str) :
    List.Chain' (fun a b => a = ' ' → isAlnum b = true) (collapseAux b l) := by
  induction l generalizing b with
  | nil => simp [collapseAux]
  | cons d ds ih =>
    by_cases hd : isAlnum d
    · simp only [collapseAux, hd, if_pos]
      refine List.chain'_cons'.2 ⟨?_, ih false⟩
      intro e _ hsp
      exact absurd hsp (isAlnum_ne_space hd)
    · simp only [collapseAux, hd, Bool.false_eq_true, if_neg]
      cases b with
      | true => simpa using ih true
      | false =>
        simp only [if_false]
        refine List.chain'_cons'.2 ⟨?_, ih true⟩
        intro e he _
        exact head_collapseAux_true ds e he

theorem collapseAux_fixpoint :
    ∀ (l : Str), (∀ c ∈ l, isAlnum c = true ∨ c = ' ') →
    List.Chain' (fun a b => a = ' ' → isAlnum b = true) l →
    collapseAux false l = l := by
  intro l
  induction l with
  | nil => intro _ _; rfl
  | cons d ds ih =>
    intro hmem hch
    have hd := hmem d (List.mem_cons_self d ds)
    have hds : ∀ c ∈ ds, isAlnum c = true ∨ c = ' ' :=
      fun c hc => hmem c (List.mem_cons_of_mem d hc)
    have hch' := (List.chain'_cons'.1 hch).2
    rcases hd with hd | hd
    · simp only [collapseAux, hd, if_pos, List.cons.injEq, true_and]
      exact ih hds hch'
    · subst hd
      have hsp : isAlnum ' ' = false := by decide
      simp only [collapseAux, hsp, Bool.false_eq_true, if_neg, if_false,
        List.cons.injEq, true_and]
      cases ds with
      | nil => rfl
      | cons e es =>
        have he : isAlnum e = true :=
          (List.chain'_cons'.1 hch).1 e (by simp) rfl
        have : collapseAux false (e :: es) = e :: es := ih hds hch'
        simp only [collapseAux, he, if_pos] at this ⊢
        exact this

theorem dropWhile_head_not (q : Char → Bool) (l : Str) :
    ∀ a ∈ (l.dropWhile q).head?, q a = false := by
  induction l with
  | nil => intro a ha; simp at ha
  | cons d ds ih =>
    intro a ha
    by_cases hd : q d
    · rw [List.dropWhile_cons_of_pos hd] at ha
      exact ih a ha
    · rw [List.dropWhile_cons_of_neg hd] at ha
      simp only [List.head?_cons, Option.mem_def, Option.some.injEq] at ha
      subst ha
      exact Bool.of_not_eq_true hd

theorem dropWhile_eq_self_of_head (q : Char → Bool) (l : Str)
    (h : ∀ a ∈ l.head?, q a = false) : l.dropWhile q = l := by
  cases l with
  | nil => rfl
  | cons d ds => exact List.dropWhile_cons_of_neg (by simp [h d (by simp)])

theorem prefix_head?_eq {l₁ l₂ : Str} (h : l₁ <+: l₂) (hne : l₁ ≠ []) :
    l₁.head? = l₂.head? := by
  obtain ⟨t, rfl⟩ := h
  cases l₁ with
  | nil => exact absurd rfl hne
  | cons a as => rfl

theorem pyStrip_prefix_dropWhile (l : Str) :
    pyStrip l <+: l.dropWhile Char.isWhitespace := by
  unfold pyStrip
  obtain ⟨s, hs⟩ :=
    List.dropWhile_suffix (l := (l.dropWhile Char.isWhitespace).reverse)
      Char.isWhitespace
  exact ⟨s.reverse, by
    rw [← List.reverse_append, hs, List.reverse_reverse]⟩

theorem pyStrip_within (l : Str) : pyStrip l <:+: l :=
  List.IsInfix.trans ( List.IsPrefix.isInfix (pyStrip_prefix_dropWhile l))
    ( List.IsSuffix.isInfix (List.dropWhile_suffix _))

theorem pyStrip_head (l : Str) :
    ∀ a ∈ (pyStrip l).head?, a.isWhitespace = false := by
  intro a ha
  have hne : pyStrip l ≠ [] := by
    intro h0; rw [h0] at ha; simp at ha
  rw [prefix_head?_eq (pyStrip_prefix_dropWhile l) hne] at ha
  exact dropWhile_head_not _ _ a ha

theorem pyStrip_getLast (l : Str) :
    ∀ a ∈ (pyStrip l).getLast?, a.isWhitespace = false := by
  intro a ha
  unfold pyStrip at ha
  rw [List.getLast?_reverse] at ha
  exact dropWhile_head_not _ _ a ha

theorem pyStrip_eq_self (l : Str)
    (h1 : ∀ a ∈ l.head?, a.isWhitespace = false)
    (h2 : ∀ a ∈ l.getLast?, a.isWhitespace = false) : pyStrip l = l := by
  unfold pyStrip
  rw [dropWhile_eq_self_of_head _ _ h1]
  rw [dropWhile_eq_self_of_head _ _ (by simpa [List.head?_reverse] using h2)]
  exact List.reverse_reverse l

theorem map_eq_self_of_fixed {f : Char → Char} {l : Str}
    (h : ∀ c ∈ l, f c = c) : l.map f = l := by
  induction l with
  | nil => rfl
  | cons d ds ih =>
    simp only [List.map_cons, h d (by simp), List.cons.injEq, true_and]
    exact ih fun c hc => h c (List.mem_cons_of_mem d hc)

theorem mem_normalize {c : Char} {x : Str} (h : c ∈ normalize x) :
    isAlnum c = true ∨ c = ' ' :=
  mem_collapseAux false (pyLower x)
    ((pyStrip_within (collapseRuns (pyLower x))).sublist.mem h)

/-- C3: the text-normalization function of the importer is idempotent:
`normalize (normalize x) = normalize x` for every text `x`, where `normalize`
lowercases the text, collapses runs of non-alphanumeric characters to single
spaces and strips the ends (src/ifc_to_graph.py:26-32). -/
theorem normalize_idempotent (x : Str) : normalize (normalize x) = normalize x := by
  set y := normalize x with hy
  have hmem : ∀ c ∈ y, isAlnum c = true ∨ c = ' ' := fun c hc => mem_normalize hc
  have hlow : pyLower y = y :=
    map_eq_self_of_fixed fun c hc => toLower_fixed (hmem c hc)
  have hch : List.Chain' (fun a b => a = ' ' → isAlnum b = true) y :=
    List.Chain'.infix (chain'_collapseAux false (pyLower x)) (pyStrip_within _)
  have hcol : collapseRuns y = y := collapseAux_fixpoint y hmem hch
  have hws : ∀ c ∈ y, c.isWhitespace = false → True := fun _ _ _ => trivial
  have hstr : pyStrip y = y := by
    refine pyStrip_eq_self y ?_ ?_
    · exact pyStrip_head (collapseRuns (pyLower x))
    · exact pyStrip_getLast (collapseRuns (pyLower x))
  unfold normalize
  rw [hlow, hcol, hstr]

theorem found_key_eq_find (sp : IfcSpace) (room_keys : List Str) :
    found_key sp room_keys = room_keys.find? (keyMatches sp) := by
  induction room_keys with
  | nil => rfl
  | cons key rest ih =>
    by_cases h1 : normalize key = p_global sp ∨ normalize key = p_name sp ∨
        normalize key = p_long sp ∨ normalize key = p_combined_1 sp ∨
        normalize key = p_combined_2 sp
    · rw [found_key, if_pos h1, List.find?_cons_of_pos]
      simp [keyMatches, h1]
    · by_cases h2 : normalize key <:+: p_combined_1 sp ∨
          normalize key <:+: p_combined_2 sp
      · rw [found_key, if_neg h1, if_pos h2, List.find?_cons_of_pos]
        simp [keyMatches, h2]
      · by_cases h3 : p_combined_1 sp <:+: normalize key ∨
            p_combined_2 sp <:+: normalize key
        · rw [found_key, if_neg h1, if_neg h2, if_pos h3, List.find?_cons_of_pos]
          simp [keyMatches, h3]
        · rw [found_key, if_neg h1, if_neg h2, if_neg h3, List.find?_cons_of_neg, ih]
          simp [keyMatches, h1, h2, h3]

/-- C1 counterexample: with the sensor config consisting of the empty-string
key and a space with global id `"G1"`, the empty key is the first (and only)
config key and it satisfies the match tests, yet the produced room_key is the
fallback `"ifc_auto_G1"`, not that first satisfying key: Python truthiness
makes the code treat a matched empty key as no match. -/
theorem room_matching_counterexample :
    keyMatches ⟨none, none, none, some ("G1".toList)⟩ [] = true ∧
    found_key ⟨none, none, none, some ("G1".toList)⟩ [[]] = some [] ∧
    upsert_key [[]] ⟨none, none, none, some ("G1".toList)⟩ =
      some ("ifc_auto_G1".toList) ∧
    some ("ifc_auto_G1".toList) ≠ some ([] : Str) := by decide

/-- C1 (amended): room identity is resolved by the five normalized candidate
strings and the first config key satisfying the ordered tests — except that a
matched key which is the empty string is treated as no match (Python
truthiness).  When no (non-empty) key matches: if the space has a non-empty
global id `G` the room_key is the fallback `"ifc_auto_" ++ G`, and with no
non-empty global id the space produces no record. -/
theorem room_matching_amended (room_keys : List Str) (sp : IfcSpace) :
    (found_key sp room_keys = room_keys.find? (keyMatches sp)) ∧
    (∀ k, found_key sp room_keys = some k → k ≠ [] →
      upsert_key room_keys sp = some k) ∧
    ((found_key sp room_keys = none ∨ found_key sp room_keys = some []) →
      (∀ g, sp.globalid = some g → g ≠ [] →
        upsert_key room_keys sp = some (ifc_auto_text ++ g)) ∧
      ((sp.globalid = none ∨ sp.globalid = some []) →
        upsert_key room_keys sp = none)) := by
  refine ⟨found_key_eq_find sp room_keys, ?_, ?_⟩
  · intro k hk hne
    unfold upsert_key
    rw [hk]
    have ht : truthy (some k) = true := by
      simp [truthy, List.isEmpty_iff, hne]
    simp [ht]
  · intro hf
    constructor
    · intro g hg hgne
      have ht : truthy sp.globalid = true := by
        rw [hg]; simp [truthy, List.isEmpty_iff, hgne]
      unfold upsert_key
      rcases hf with hf | hf <;>
        simp [hf, truthy, ht, hg, List.isEmpty_iff, ifc_auto_text, hgne]
    · intro hg
      have ht : truthy sp.globalid = false := by
        rcases hg with hg | hg <;> simp [hg, truthy]
      have tn : truthy none = false := rfl
      have ts : truthy (some ([] : Str)) = false := rfl
      unfold upsert_key
      rcases hf with hf | hf <;> simp [hf, ht, tn, ts]

/-- Witness for C1 (amended), with the spec's own example: config key
`"Room 101"`, space long name `"Room 101 Office"` — matching succeeds via
substring containment, and the upserted room_key is that key. -/
theorem room_matching_witness :
    upsert_key [("Room 101".toList)]
      ⟨none, some ("Room 101 Office".toList), none, none⟩ =
      some ("Room 101".toList) :=
  (room_matching_amended [("Room 101".toList)]
      ⟨none, some ("Room 101 Office".toList), none, none⟩).2.1
    ("Room 101".toList) (by decide) (by decide)

/-- C5: every room record upserted by the import — a matched space, a
fallback-keyed space, or a placeholder for an unmatched configured key — has
a non-null room_key. -/
theorem upserted_room_key_nonnull (room_keys : List Str)
    (spaces : List IfcSpace) :
    ∀ r ∈ upserted_records room_keys spaces, r.room_key ≠ none := by
  intro r hr
  rcases List.mem_append.1 hr with h | h
  · obtain ⟨sp, _, hsp⟩ := List.mem_filterMap.1 h
    unfold spaceRecord at hsp
    obtain ⟨k, _, hk⟩ := Option.map_eq_some'.1 hsp
    rw [← hk]
    simp
  · obtain ⟨k, _, hk⟩ := List.mem_map.1 h
    rw [← hk]
    simp

/-- Witness for C5: with one configured key and no spaces, the placeholder
record is upserted and its room_key is non-null. -/
theorem upserted_room_key_nonnull_witness :
    ({ room_key := some ("K1".toList), name := none, long_name := none,
       globalid := none, type := some ("Placeholder".toList) } :
      RoomRecord).room_key ≠ none :=
  upserted_room_key_nonnull [("K1".toList)] [] _ (by decide)

/-- C6 (code bug): the cache test of `_load_sensor_config` uses
`timedelta.seconds` — the seconds component after whole days are removed —
so at 86460 elapsed seconds (1 day + 60 s) the stale cache is still
returned, although far more than the 300-second window has elapsed.  This
contradicts the claim and the code's own comment (reload every 5 minutes). -/
theorem sensor_cache_seconds_bug :
    sensor_config_cache_hit true true 86460 = true ∧ 300 ≤ 86460 := by decide

/-- C10: `_sanitize_string` always returns a string of length at most 100
containing no single-quote, double-quote, backslash, semicolon or backtick,
and maps `None` to the empty string — so a filter value interpolated into a
Cypher string literal through it cannot close that literal. -/
theorem sanitize_string_safe (v : Option Str) :
    (_sanitize_string v).length ≤ 100 ∧
    (∀ c ∈ _sanitize_string v, isDangerous c = false) ∧
    _sanitize_string none = [] := by
  refine ⟨?_, ?_, rfl⟩
  · cases v with
    | none => simp [_sanitize_string]
    | some s =>
      simp only [_sanitize_string]
      exact List.length_take_le 100 _
  · intro c hc
    cases v with
    | none => simp [_sanitize_string] at hc
    | some s =>
      simp only [_sanitize_string] at hc
      have h1 := List.mem_of_mem_take hc
      have h2 := List.of_mem_filter h1
      simpa using h2

/-- Witness for C10: on the concrete input `"a;b"` the sanitizer keeps the
letter `a`, which is not a dangerous character. -/
theorem sanitize_string_safe_witness : isDangerous 'a' = false :=
  (sanitize_string_safe (some ("a;b".toList))).2.1 'a' (by decide)

/-- C9 (modelled from the spec, §4.6): formatting never alters the values it
is given — projecting the formatted rows back onto (name, value) returns the
input — and the comfort label follows the fixed thresholds: above 21 "high",
below 19 "low", otherwise "acceptable". -/
theorem format_comfort_label :
    (∀ rows : List (Str × ℚ),
      (format_rows rows).map (fun t => (t.1, t.2.1)) = rows) ∧
    (∀ v : ℚ,
      (21 < v → comfort_label v = "high".toList) ∧
      (v < 19 → comfort_label v = "low".toList) ∧
      (19 ≤ v → v ≤ 21 → comfort_label v = "acceptable".toList)) := by
  constructor
  · intro rows
    rw [format_rows, List.map_map]
    have hcomp : ((fun (t : Str × ℚ × Str) => (t.1, t.2.1)) ∘
        fun (p : Str × ℚ) => (p.1, p.2, comfort_label p.2)) = id := by
      funext p
      rfl
    rw [hcomp, List.map_id]
  · intro v
    refine ⟨?_, ?_, ?_⟩
    · intro h; simp [comfort_label, h]
    · intro h
      rw [comfort_label, if_neg (by linarith), if_pos h]
    · intro h1 h2
      rw [comfort_label, if_neg (by linarith), if_neg (by linarith)]

/-- Witness for C9: concrete values on each side of the thresholds. -/
theorem format_comfort_label_witness :
    comfort_label 22 = "high".toList ∧ comfort_label 18 = "low".toList ∧
    comfort_label 20 = "acceptable".toList :=
  ⟨(format_comfort_label.2 22).1 (by norm_num),
   (format_comfort_label.2 18).2.1 (by norm_num),
   (format_comfort_label.2 20).2.2 (by norm_num) (by norm_num)⟩

theorem toNat_ofNat_valid {m : Nat} (h : m < 55296) :
    (Char.ofNat m).toNat = m := by
  have hv : m.isValidChar := Or.inl h
  rw [Char.ofNat, dif_pos hv]
  simp [Char.ofNatAux, Char.toNat, UInt32.toNat]

theorem upper_lower (c : Char) : c.toLower.toUpper = c.toUpper := by
  unfold Char.toLower Char.toUpper
  by_cases h1 : c.toNat ≥ 65 ∧ c.toNat ≤ 90
  · rw [if_pos h1]
    have ht : (Char.ofNat (c.toNat + 32)).toNat = c.toNat + 32 :=
      toNat_ofNat_valid (by omega)
    rw [ht, if_pos (by omega), if_neg (by omega)]
    have h2 : c.toNat + 32 - 32 = c.toNat := by omega
    rw [h2, Char.ofNat_toNat]
  · rw [if_neg h1]

/-- C2 counterexample: on the description `"AULA LABORATORIO"` both `"AULA"`
(4 characters, declared 3rd) and `"LABORATORIO"` (11 characters, declared
14th) are substrings; the code's declaration-order lookup answers
`"Classroom"`, while the longest-match-first lookup the claim describes
answers `"Laboratory"` — so the translation is not longest-match-first. -/
theorem category_translation_counterexample :
    category_en (some ("AULA LABORATORIO".toList)) = some ("Classroom".toList) ∧
    category_en_longest ("AULA LABORATORIO".toList) = some ("Laboratory".toList) ∧
    some ("Classroom".toList) ≠ some ("Laboratory".toList) := by decide

/-- C2 (amended): the Italian-to-English category translation maps a
description via substring lookup against the upper-cased description in the
fixed term table, the first table entry in declaration order winning (not
longest-match-first); the mapping is a function of the upper-cased text
(hence deterministic and case-insensitive), `"UFFICI DOCENTI"` maps to
`"Office"`, and an unmapped input yields no English category. -/
theorem category_translation_amended :
    (∀ s : Str, category_en (some s) =
      (category_map.find? fun kv => decide (kv.1 <:+: pyUpper s)).map Prod.snd) ∧
    (∀ s : Str, category_en (some (pyLower s)) = category_en (some s)) ∧
    category_en (some ("UFFICI DOCENTI".toList)) = some ("Office".toList) ∧
    category_en (some ("PALESTRA".toList)) = none ∧
    category_en none = none := by
  refine ⟨?_, ?_, by decide, by decide, rfl⟩
  · intro s
    cases s with
    | nil => decide
    | cons c cs => simp [category_en]
  · intro s
    have hup : pyUpper (pyLower s) = pyUpper s := by
      unfold pyUpper pyLower
      rw [List.map_map]
      exact List.map_congr_left fun c _ => upper_lower c
    cases s with
    | nil => rfl
    | cons c cs =>
      have hcons : pyLower (c :: cs) = Char.toLower c :: pyLower cs := rfl
      rw [hcons] at hup ⊢
      simp only [category_en, List.isEmpty_cons]
      rw [hup]

/-- C4: the intent classification is exactly keyword membership on the
lowercased query — structural if any structural keyword occurs (taking
priority), else time-series if any time-series keyword occurs, else
ambiguous — and the three example queries classify as the claim states. -/
theorem intent_classification :
    (∀ q : Str,
      (classify_intent q = .structural ↔
        ∃ kw ∈ structural_kw, kw <:+: pyLower q) ∧
      (classify_intent q = .timeseries ↔
        (¬ ∃ kw ∈ structural_kw, kw <:+: pyLower q) ∧
        ∃ kw ∈ timeseries_kw, kw <:+: pyLower q) ∧
      (classify_intent q = .ambiguous ↔
        (¬ ∃ kw ∈ structural_kw, kw <:+: pyLower q) ∧
        ¬ ∃ kw ∈ timeseries_kw, kw <:+: pyLower q)) ∧
    classify_intent ("What\'s connected to Room 5?".toList) = .structural ∧
    classify_intent ("What\'s the average temperature?".toList) = .timeseries ∧
    classify_intent ("hello".toList) = .ambiguous := by
  refine ⟨?_, by decide, by decide, by decide⟩
  intro q
  have hs : (structural_kw.any fun kw => decide (kw <:+: pyLower q)) = true ↔
      ∃ kw ∈ structural_kw, kw <:+: pyLower q := by
    simp [List.any_eq_true]
  have ht : (timeseries_kw.any fun kw => decide (kw <:+: pyLower q)) = true ↔
      ∃ kw ∈ timeseries_kw, kw <:+: pyLower q := by
    simp [List.any_eq_true]
  by_cases h1 : (structural_kw.any fun kw => decide (kw <:+: pyLower q)) = true
  · have hc : classify_intent q = .structural := by
      simp [classify_intent, h1]
    have hex := hs.1 h1
    exact ⟨iff_of_true hc hex,
      iff_of_false (by rw [hc]; decide) (fun hp => hp.1 hex),
      iff_of_false (by rw [hc]; decide) (fun hp => hp.1 hex)⟩
  · have h1f : (structural_kw.any fun kw => decide (kw <:+: pyLower q)) = false :=
      Bool.of_not_eq_true h1
    have hnex : ¬ ∃ kw ∈ structural_kw, kw <:+: pyLower q :=
      fun he => h1 (hs.2 he)
    by_cases h2 : (timeseries_kw.any fun kw => decide (kw <:+: pyLower q)) = true
    · have hc : classify_intent q = .timeseries := by
        simp [classify_intent, h1f, h2]
      exact ⟨iff_of_false (by rw [hc]; decide) (fun he => h1 (hs.2 he)),
        iff_of_true hc ⟨hnex, ht.1 h2⟩,
        iff_of_false (by rw [hc]; decide) (fun hp => hp.2 (ht.1 h2))⟩
    · have h2f : (timeseries_kw.any fun kw => decide (kw <:+: pyLower q)) = false :=
        Bool.of_not_eq_true h2
      have hnex2 : ¬ ∃ kw ∈ timeseries_kw, kw <:+: pyLower q :=
        fun he => h2 (ht.2 he)
      have hc : classify_intent q = .ambiguous := by
        simp [classify_intent, h1f, h2f]
      exact ⟨iff_of_false (by rw [hc]; decide) hnex,
        iff_of_false (by rw [hc]; decide) (fun hp => hnex2 hp.2),
        iff_of_true hc ⟨hnex, hnex2⟩⟩

/-- C8: once `inspect_zone_metrics` has resolved the zone to a non-empty set
of rooms, if none of those rooms has a configured sensor matching the
alias-normalized measurement type, the step returns the descriptive no-data
message — a non-empty string — rather than an empty result set; the embedded
step is a total function, so no unhandled failure is raised there. -/
theorem zone_metrics_no_sensor_message (zone mtype : Str) (roomIds : List Str)
    (cfg : List (Str × SensorEntry)) (_hne : roomIds ≠ [])
    (h : rooms_with_sensors roomIds cfg (normalize_measurement mtype) = []) :
    inspect_zone_sensor_step zone mtype roomIds cfg =
      .error (no_sensors_message roomIds.length zone mtype) ∧
    no_sensors_message roomIds.length zone mtype ≠ [] := by
  refine ⟨?_, ?_⟩
  · simp [inspect_zone_sensor_step, h]
  · unfold no_sensors_message
    intro hmsg
    have hF : ("Found ".toList : Str) ≠ [] := by decide
    simp only [List.append_assoc] at hmsg
    exact hF (List.append_eq_nil.1 hmsg).1

/-- Witness for C8: one room whose only configured sensor is a temperature
sensor, queried for co2 — the step returns the no-data message. -/
theorem zone_metrics_no_sensor_message_witness :
    inspect_zone_sensor_step ("first floor".toList) ("co2".toList)
      [("r1".toList)]
      [(("r1".toList),
        SensorEntry.dict [(("temperature".toList), ("t1".toList))])] =
      .error (no_sensors_message 1 ("first floor".toList) ("co2".toList)) ∧
    no_sensors_message 1 ("first floor".toList) ("co2".toList) ≠ [] :=
  zone_metrics_no_sensor_message ("first floor".toList) ("co2".toList)
    [("r1".toList)]
    [(("r1".toList), SensorEntry.dict [(("temperature".toList), ("t1".toList))])]
    (by decide) (by decide)

theorem strLe_total (a b : Str) : strLe a b = true ∨ strLe b a = true := by
  induction a generalizing b with
  | nil => left; rfl
  | cons x xs ih =>
    cases b with
    | nil => right; rfl
    | cons y ys =>
      by_cases hxy : x < y
      · left; simp [strLe, hxy]
      · by_cases hyx : y < x
        · right; simp [strLe, hyx]
        · rcases ih ys with h | h
          · left; simp [strLe, hxy, hyx, h]
          · right; simp [strLe, hyx, hxy, h]

theorem strLe_trans {a b c : Str} (h1 : strLe a b = true)
    (h2 : strLe b c = true) : strLe a c = true := by
  induction a generalizing b c with
  | nil => rfl
  | cons x xs ih =>
    cases b with
    | nil => simp [strLe] at h1
    | cons y ys =>
      cases c with
      | nil => simp [strLe] at h2
      | cons z zs =>
        by_cases hxy : x < y
        · by_cases hyz : y < z
          · simp [strLe, lt_trans hxy hyz]
          · by_cases hzy : z < y
            · simp [strLe, hyz, hzy] at h2
            · have hy : y = z := le_antisymm (not_lt.1 hzy) (not_lt.1 hyz)
              subst hy
              simp [strLe, hxy]
        · by_cases hyx : y < x
          · simp [strLe, hxy, hyx] at h1
          · have hx : x = y := le_antisymm (not_lt.1 hyx) (not_lt.1 hxy)
            subst hx
            simp only [strLe, if_neg hxy, if_neg hyx] at h1
            by_cases hxz : x < z
            · simp [strLe, hxz]
            · by_cases hzx : z < x
              · simp [strLe, hxz, hzx] at h2
              · have hz : x = z := le_antisymm (not_lt.1 hzx) (not_lt.1 hxz)
                subst hz
                simp only [strLe, if_neg hxz, if_neg hzx] at h2 ⊢
                exact ih h1 h2

theorem strLe_antisymm {a b : Str} (h1 : strLe a b = true)
    (h2 : strLe b a = true) : a = b := by
  induction a generalizing b with
  | nil =>
    cases b with
    | nil => rfl
    | cons y ys => simp [strLe] at h2
  | cons x xs ih =>
    cases b with
    | nil => simp [strLe] at h1
    | cons y ys =>
      by_cases hxy : x < y
      · simp [strLe, hxy, lt_asymm hxy] at h2
      · by_cases hyx : y < x
        · simp [strLe, hxy, hyx] at h1
        · have hx : x = y := le_antisymm (not_lt.1 hyx) (not_lt.1 hxy)
          subst hx
          simp only [strLe, if_neg hxy, if_neg hyx] at h1 h2
          rw [ih h1 h2]

theorem optStrLe_total (a b : Option Str) :
    optStrLe a b = true ∨ optStrLe b a = true := by
  cases a with
  | none =>
    cases b with
    | none => left; rfl
    | some t => right; rfl
  | some s =>
    cases b with
    | none => left; rfl
    | some t => exact strLe_total s t

theorem optStrLe_trans {a b c : Option Str} (h1 : optStrLe a b = true)
    (h2 : optStrLe b c = true) : optStrLe a c = true := by
  cases a with
  | none =>
    cases b with
    | none => exact h2
    | some t =>
      cases c with
      | none => rfl
      | some u => simp [optStrLe] at h1
  | some s =>
    cases b with
    | none =>
      cases c with
      | none => rfl
      | some u => simp [optStrLe] at h2
    | some t =>
      cases c with
      | none => rfl
      | some u => exact strLe_trans h1 h2

theorem optStrLe_antisymm {a b : Option Str} (h1 : optStrLe a b = true)
    (h2 : optStrLe b a = true) : a = b := by
  cases a with
  | none =>
    cases b with
    | none => rfl
    | some t => simp [optStrLe] at h1
  | some s =>
    cases b with
    | none => simp [optStrLe] at h2
    | some t => rw [strLe_antisymm h1 h2]

theorem node_le_total (x y : RoomNode) :
    node_le x y = true ∨ node_le y x = true := by
  unfold node_le
  by_cases h : x.storey = y.storey
  · rw [if_pos h, if_pos h.symm]
    exact optStrLe_total _ _
  · rw [if_neg h, if_neg fun he => h he.symm]
    exact optStrLe_total _ _

theorem node_le_trans {x y z : RoomNode} (h1 : node_le x y = true)
    (h2 : node_le y z = true) : node_le x z = true := by
  unfold node_le at h1 h2 ⊢
  by_cases hxy : x.storey = y.storey
  · rw [if_pos hxy] at h1
    by_cases hyz : y.storey = z.storey
    · rw [if_pos hyz] at h2
      rw [if_pos (hxy.trans hyz)]
      exact optStrLe_trans h1 h2
    · rw [if_neg hyz] at h2
      rw [if_neg fun he => hyz (hxy.symm.trans he), hxy]
      exact h2
  · rw [if_neg hxy] at h1
    by_cases hyz : y.storey = z.storey
    · rw [if_neg fun he => hxy (he.trans hyz.symm), ← hyz]
      exact h1
    · rw [if_neg hyz] at h2
      by_cases hxz : x.storey = z.storey
      · exfalso
        exact hxy (optStrLe_antisymm h1 (hxz.symm ▸ h2))
      · rw [if_neg hxz]
        exact optStrLe_trans h1 h2

/-- C7 counterexample: a room on storey `"001"` is not selected by the floor
filter `"0"` although `"0"` is a substring of `"001"` — the floor filter is
exact equality or suffix match, not substring match. -/
theorem query_topology_counterexample :
    query_topology
      [{ room_key := some ("k1".toList), name := some ("A".toList),
         longname := none, category_en := none, category_it := none,
         storey := some ("001".toList), floor := none, type := none }]
      none (some ("0".toList)) none = [] ∧
    ("0".toList : Str) <:+: ("001".toList) := by decide

/-- C7 (amended): given at least one of category, floor or name_contains,
`query_topology` selects room records whose sanitized category value is a
substring of a category field, whose sanitized name value is a substring of
a name field, and whose sanitized floor value equals the storey, is a suffix
of the storey, or equals the floor property (not a general substring match);
it returns at most 100 rows, sorted by floor then name. -/
theorem query_topology_amended (db : List RoomNode)
    (category floor name_contains : Option Str) :
    (∀ n ∈ query_topology db category floor name_contains,
      n ∈ db ∧ topology_pred category floor name_contains n = true) ∧
    (query_topology db category floor name_contains).length ≤ 100 ∧
    List.Sorted (fun x y => node_le x y = true)
      (query_topology db category floor name_contains) := by
  unfold query_topology
  by_cases hv : (truthy category || truthy floor || truthy name_contains) = true
  · rw [hv]
    simp only [Bool.not_true, Bool.false_eq_true, if_false]
    set r : RoomNode → RoomNode → Prop := fun x y => node_le x y = true with hr
    set l := db.filter (topology_pred category floor name_contains) with hl
    have hperm : (l.insertionSort r).Perm l := List.perm_insertionSort r l
    have hsor : List.Sorted r (l.insertionSort r) :=
      @List.sorted_insertionSort RoomNode r _
        ⟨fun a b => node_le_total a b⟩
        ⟨fun a b c h1 h2 => node_le_trans h1 h2⟩ l
    refine ⟨?_, ?_, ?_⟩
    · intro n hn
      have h1 : n ∈ l.insertionSort r := List.mem_of_mem_take hn
      have h2 : n ∈ l := hperm.mem_iff.1 h1
      exact ⟨(List.mem_filter.1 h2).1, (List.mem_filter.1 h2).2⟩
    · exact List.length_take_le 100 _
    · exact List.Pairwise.sublist (List.take_sublist 100 _) hsor
  · have hv' : (truthy category || truthy floor || truthy name_contains) = false :=
      Bool.of_not_eq_true hv
    rw [hv']
    simp only [Bool.not_false, if_true]
    refine ⟨?_, ?_, ?_⟩
    · intro n hn
      exact absurd hn (List.not_mem_nil n)
    · simp
    · exact List.sorted_nil

/-- Witness for C7 (amended): a single room on storey `"001"` selected by
the exact floor filter `"001"` is in the database and satisfies the
predicate. -/
theorem query_topology_amended_witness :
    ({ room_key := some ("k1".toList), name := some ("A".toList),
       longname := none, category_en := none, category_it := none,
       storey := some ("001".toList), floor := none, type := none } :
        RoomNode) ∈
      [({ room_key := some ("k1".toList), name := some ("A".toList),
          longname := none, category_en := none, category_it := none,
          storey := some ("001".toList), floor := none, type := none } :
        RoomNode)] ∧
    topology_pred none (some ("001".toList)) none
      { room_key := some ("k1".toList), name := some ("A".toList),
        longname := none, category_en := none, category_it := none,
        storey := some ("001".toList), floor := none, type := none } = true :=
  (query_topology_amended
      [{ room_key := some ("k1".toList), name := some ("A".toList),
         longname := none, category_en := none, category_it := none,
         storey := some ("001".toList), floor := none, type := none }]
      none (some ("001".toList)) none).1
    { room_key := some ("k1".toList), name := some ("A".toList),
      longname := none, category_en := none, category_it := none,
      storey := some ("001".toList), floor := none, type := none }
    (by decide)

end Umarell
